import Mathlib

/-
Verification development for the DSP_Funks VCV Rack plugin
(src/Filter.cpp and src/Pass.cpp).

Modelling conventions:
* `float` voltages and parameters are modelled as exact rationals (ℚ).
* The C constant `M_PI` is modelled as the exact rational value of the
  IEEE-754 double 0x400921FB54442D18 that the source code multiplies with.
* A port write `setChannels(n); writeVoltages(buf.data())` is modelled by
  recording the channel count and the buffer passed to the write call.
* Host reads `params[..].getValue() == 1` are modelled as the resulting
  booleans; light brightness updates are presentation only and dropped.
-/

/-- The exact rational value of the IEEE-754 double constant `M_PI`
(0x400921FB54442D18 = 884279719003555 / 2^48) used by `calculateAlpha`. -/
def M_PI : ℚ := 884279719003555 / 281474976710656

/-- `Filter::calculateAlpha` (src/Filter.cpp lines 33-40): take the absolute
value of the cutoff, clamp it to the Nyquist frequency `sampleRate / 2`,
form `omega = 2 * M_PI * cutoff / sampleRate` and return `omega / (omega + 1)`. -/
def calculateAlpha (cutoff sampleRate : ℚ) : ℚ :=
  let c := |cutoff|
  let c2 := if c > sampleRate / 2 then sampleRate / 2 else c
  let omega := 2 * M_PI * c2 / sampleRate
  omega / (omega + 1)

/-- The persisted filter scalars of the `Filter` module (src/Filter.cpp
lines 15-17): a single `prevLowPassSample`, `prevHighPassSample` and
`prevInputSample`, shared by all stages and all polyphonic lanes. -/
structure FilterState where
  prevLowPassSample : ℚ
  prevHighPassSample : ℚ
  prevInputSample : ℚ
deriving DecidableEq, Repr

/-- Loop body of `Filter::ApplyLowPass` (src/Filter.cpp lines 67-70):
`voltages[i] = alpha * voltages[i] + (1 - alpha) * prevLowPassSample;
prevLowPassSample = voltages[i];`. Returns the updated state and the
value written back into the lane. -/
def lowPassLane (alpha : ℚ) (s : FilterState) (x : ℚ) : FilterState × ℚ :=
  let y := alpha * x + (1 - alpha) * s.prevLowPassSample
  ({ s with prevLowPassSample := y }, y)

/-- Loop body of `Filter::ApplyBandPass` (src/Filter.cpp lines 88-97):
computes `lowPass` from `prevLowPassSample`, `highPass` from
`prevHighPassSample`/`prevInputSample`, stores `lowPass` back into
`prevLowPassSample`, `highPass` into `prevHighPassSample`, the original
lane value into `prevInputSample`, and writes `lowPass - highPass`. -/
def bandPassLane (alphaLow alphaHigh : ℚ) (s : FilterState) (x : ℚ) :
    FilterState × ℚ :=
  let lowPass := alphaLow * x + (1 - alphaLow) * s.prevLowPassSample
  let highPass := alphaHigh * (s.prevHighPassSample + x - s.prevInputSample)
  ({ prevLowPassSample := lowPass, prevHighPassSample := highPass,
     prevInputSample := x }, lowPass - highPass)

/-- Loop body of `Filter::ApplyHighPass` (src/Filter.cpp lines 109-113):
`voltages[i] = alpha * (prevHighPassSample + voltages[i] - prevInputSample);
prevHighPassSample = voltages[i]; prevInputSample = voltages[i];`.
Note that the lane is overwritten before `prevInputSample` is recorded,
so the recorded value is the stage output. -/
def highPassLane (alpha : ℚ) (s : FilterState) (x : ℚ) : FilterState × ℚ :=
  let y := alpha * (s.prevHighPassSample + x - s.prevInputSample)
  ({ s with prevHighPassSample := y, prevInputSample := y }, y)

/-- Runs a per-lane loop body over every lane of the buffer in order,
threading the persisted filter state, and collects the mutated buffer. -/
def runLanes (f : FilterState → ℚ → FilterState × ℚ) :
    FilterState → List ℚ → FilterState × List ℚ
  | s, [] => (s, [])
  | s, x :: xs =>
    let p := f s x
    let r := runLanes f p.1 xs
    (r.1, p.2 :: r.2)

/-- `Filter::ApplyLowPass` (src/Filter.cpp lines 58-73): if the low-pass
output port is disconnected nothing happens; otherwise the low-pass loop
runs over every lane with `alpha = calculateAlpha cutoff sampleRate`.
The returned buffer is the one written to the output port. -/
def ApplyLowPass (connected : Bool) (cutoff sampleRate : ℚ)
    (s : FilterState) (v : List ℚ) : FilterState × List ℚ :=
  if connected then runLanes (lowPassLane (calculateAlpha cutoff sampleRate)) s v
  else (s, v)

/-- `Filter::ApplyBandPass` (src/Filter.cpp lines 75-99): if the band-pass
output port is disconnected nothing happens; otherwise derives
`lowCutoff = |cutoff - 5|`, `highCutoff = |cutoff + 5|` and runs the
band-pass loop with the two corresponding alphas. -/
def ApplyBandPass (connected : Bool) (cutoff sampleRate : ℚ)
    (s : FilterState) (v : List ℚ) : FilterState × List ℚ :=
  if connected then
    let lowCutoff := |cutoff - 5|
    let highCutoff := |cutoff + 5|
    runLanes (bandPassLane (calculateAlpha lowCutoff sampleRate)
      (calculateAlpha highCutoff sampleRate)) s v
  else (s, v)

/-- `Filter::ApplyHighPass` (src/Filter.cpp lines 101-117): if the
high-pass output port is disconnected nothing happens; otherwise runs the
high-pass loop with `alpha = calculateAlpha cutoff sampleRate`. -/
def ApplyHighPass (connected : Bool) (cutoff sampleRate : ℚ)
    (s : FilterState) (v : List ℚ) : FilterState × List ℚ :=
  if connected then runLanes (highPassLane (calculateAlpha cutoff sampleRate)) s v
  else (s, v)

/-- The latched power toggle state shared by both modules:
`state_on` and `last_state` (src/Filter.cpp lines 13-14,
src/Pass.cpp lines 27-28). -/
structure PowerState where
  state_on : Bool
  last_state : Bool
deriving DecidableEq, Repr

/-- `Filter::updatePowerState` (src/Filter.cpp lines 42-50), identical to
`Pass::updatePowerState` (src/Pass.cpp lines 75-83): on a strict rising
edge of the raw button value the latched `state_on` is toggled, and the
raw value is always recorded in `last_state`. -/
def updatePowerState (current_state : Bool) (s : PowerState) : PowerState :=
  { state_on := if current_state && !s.last_state then !s.state_on else s.state_on,
    last_state := current_state }

/-- Feeds a sequence of raw button values through `updatePowerState`. -/
def runPower (s : PowerState) (bs : List Bool) : PowerState :=
  bs.foldl (fun t b => updatePowerState b t) s

/-- Number of strict rising edges (previous value `false`, current `true`)
in a sequence of raw button values, given the recorded previous value. -/
def risingEdges : Bool → List Bool → Nat
  | _, [] => 0
  | last, b :: bs => (if b && !last then 1 else 0) + risingEdges b bs

/-- Whether a natural number is odd, as a boolean. -/
def oddB (n : Nat) : Bool := n % 2 == 1

/-- The observable state of the `Pass` module's single output port:
the channel count last assigned with `setChannels` and the buffer last
passed to `writeVoltages`. -/
structure OutPort where
  channels : Nat
  written : List ℚ
deriving DecidableEq, Repr

/-- The persisted fields of the `Pass` module (src/Pass.cpp lines 25-34)
together with its output port. -/
structure PassM where
  num_channels : Nat
  voltages : List ℚ
  state_on : Bool
  last_state : Bool
  state_on_avg : Bool
  last_state_avg : Bool
  state_on_sum : Bool
  last_state_sum : Bool
  out : OutPort
deriving DecidableEq, Repr

/-- The per-frame external inputs of the `Pass` module: the three raw
button values (`params[..].getValue() == 1`) and the three input ports,
each `none` when disconnected and otherwise the list of lane voltages
(whose length is the port's reported channel count). -/
structure Frame where
  powerRaw : Bool
  sumRaw : Bool
  avgRaw : Bool
  in1 : Option (List ℚ)
  in2 : Option (List ℚ)
  in3 : Option (List ℚ)
deriving DecidableEq, Repr

/-- `Pass::updatePowerState` (src/Pass.cpp lines 75-83), acting on the
module's own `state_on` / `last_state` fields. -/
def Pass.updatePowerState (current_state : Bool) (s : PassM) : PassM :=
  { s with
    state_on := if current_state && !s.last_state then !s.state_on else s.state_on,
    last_state := current_state }

/-- `Pass::updateModeStates` (src/Pass.cpp lines 85-102): first the sum
trigger's rising-edge detector runs (setting `state_on_sum` and clearing
`state_on_avg` on an edge), then the avg trigger's detector runs (setting
`state_on_avg` and clearing `state_on_sum` on an edge); each detector
records its raw value afterwards. -/
def Pass.updateModeStates (current_state_sum current_state_avg : Bool)
    (s : PassM) : PassM :=
  let s1 :=
    if current_state_sum && !s.last_state_sum then
      { s with state_on_sum := true, state_on_avg := false,
               last_state_sum := current_state_sum }
    else { s with last_state_sum := current_state_sum }
  if current_state_avg && !s1.last_state_avg then
    { s1 with state_on_avg := true, state_on_sum := false,
              last_state_avg := current_state_avg }
  else { s1 with last_state_avg := current_state_avg }

/-- Lane-wise accumulation loop of `Pass::processInput`
(src/Pass.cpp lines 124-126): `voltages[i] += inputVoltages[i]` for each
lane of the input; the remaining lanes of the buffer are untouched.
The buffer has already been grown to at least the input's length, so the
second branch is unreachable in `processInput`. -/
def accumulateInto : List ℚ → List ℚ → List ℚ
  | v, [] => v
  | [], _ :: _ => []
  | a :: v, x :: xs => (a + x) :: accumulateInto v xs

/-- `Pass::processInput` (src/Pass.cpp lines 112-128): a disconnected
port contributes nothing; otherwise the buffer is grown with zero-filled
lanes when the port's channel count exceeds its length
(`voltages.resize(channels, 0.0f)`), each input lane is added into the
corresponding buffer lane, and the port's channel count is added to the
running `num_channels` total. -/
def Pass.processInput (input : Option (List ℚ)) (s : PassM) : PassM :=
  match input with
  | none => s
  | some inputVoltages =>
    let channels := inputVoltages.length
    let grown :=
      if channels > s.voltages.length then
        s.voltages ++ List.replicate (channels - s.voltages.length) 0
      else s.voltages
    { s with
      voltages := accumulateInto grown inputVoltages,
      num_channels := s.num_channels + channels }

/-- `Pass::processInputs` (src/Pass.cpp lines 104-110): clears the buffer
and the channel total, then accumulates the three input ports in order. -/
def Pass.processInputs (f : Frame) (s : PassM) : PassM :=
  Pass.processInput f.in3 (Pass.processInput f.in2
    (Pass.processInput f.in1 { s with voltages := [], num_channels := 0 }))

/-- `Pass::applyAverage` (src/Pass.cpp lines 130-134): divides every lane
of the buffer by the running channel total. -/
def Pass.applyAverage (s : PassM) : PassM :=
  { s with voltages := s.voltages.map (fun x => x / (s.num_channels : ℚ)) }

/-- `Pass::sendOutput` (src/Pass.cpp lines 136-139): sets the output
port's channel count to 1 and passes the full buffer to `writeVoltages`. -/
def Pass.sendOutput (s : PassM) : PassM :=
  { s with out := { channels := 1, written := s.voltages } }

/-- `Pass::disableOutput` (src/Pass.cpp lines 141-147): sets the output
port's channel count to 0 and forces both mode flags false. -/
def Pass.disableOutput (s : PassM) : PassM :=
  { s with out := { s.out with channels := 0 },
           state_on_sum := false, state_on_avg := false }

/-- `Pass::process` (src/Pass.cpp lines 53-73): updates the power toggle;
when off, disables the output and returns; when on, updates the mode
states, reads the inputs only when a mode is active, and when the channel
total is positive applies averaging (in average mode) and sends output. -/
def Pass.process (f : Frame) (s : PassM) : PassM :=
  let s1 := Pass.updatePowerState f.powerRaw s
  if !s1.state_on then Pass.disableOutput s1
  else
    let s2 := Pass.updateModeStates f.sumRaw f.avgRaw s1
    let s3 := if s2.state_on_sum || s2.state_on_avg then Pass.processInputs f s2
              else s2
    if s3.num_channels > 0 then
      Pass.sendOutput (if s3.state_on_avg then Pass.applyAverage s3 else s3)
    else s3

/-- The `Pass` module's state at construction (src/Pass.cpp lines 25-34):
all flags false, empty buffer, zero channel total, no output channels. -/
def initPass : PassM :=
  { num_channels := 0, voltages := [], state_on := false, last_state := false,
    state_on_avg := false, last_state_avg := false, state_on_sum := false,
    last_state_sum := false, out := { channels := 0, written := [] } }

/-- Runs the `Pass` module's per-frame callback over a sequence of frames. -/
def runPass (s : PassM) (fs : List Frame) : PassM :=
  fs.foldl (fun t f => Pass.process f t) s

/-- At most one of the two combiner mode flags is set. -/
def modeMutex (s : PassM) : Prop :=
  s.state_on_sum = false ∨ s.state_on_avg = false

instance (s : PassM) : Decidable (modeMutex s) := by
  unfold modeMutex
  infer_instance

/-- The one-pole low-pass recurrence `prev := a * x + (1 - a) * prev`
folded over a buffer: the trajectory of the shared `prevLowPassSample`
scalar under either stage that updates it. -/
def lowAcc (a p : ℚ) (v : List ℚ) : ℚ :=
  v.foldl (fun prev x => a * x + (1 - a) * prev) p

theorem runLanes_bandPass_low (aL aH : ℚ) (v : List ℚ) (s : FilterState) :
    (runLanes (bandPassLane aL aH) s v).1.prevLowPassSample =
      lowAcc aL s.prevLowPassSample v := by
  induction v generalizing s with
  | nil => rfl
  | cons x xs ih =>
    show (runLanes (bandPassLane aL aH) (bandPassLane aL aH s x).1 xs).1.prevLowPassSample = _
    rw [ih]
    rfl

theorem runLanes_lowPass_low (a : ℚ) (v : List ℚ) (s : FilterState) :
    (runLanes (lowPassLane a) s v).1.prevLowPassSample =
      lowAcc a s.prevLowPassSample v := by
  induction v generalizing s with
  | nil => rfl
  | cons x xs ih =>
    show (runLanes (lowPassLane a) (lowPassLane a s x).1 xs).1.prevLowPassSample = _
    rw [ih]
    rfl

/-- Claim C1, counterexample: running the band-pass stage does NOT leave
the low-pass stage's persisted `prevLowPassSample` unchanged — with state
(0, 0, 0), buffer [1], cutoff 0 and sample rate 44100 the band-pass stage
overwrites `prevLowPassSample` with a nonzero value, because both stages
share the single `prevLowPassSample` field. -/
theorem bandPass_changes_shared_prevLow_cex :
    (ApplyBandPass true 0 44100 ⟨0, 0, 0⟩ [1]).1.prevLowPassSample ≠
      (FilterState.mk 0 0 0).prevLowPassSample := by
  norm_num [ApplyBandPass, runLanes, bandPassLane, calculateAlpha, M_PI]

/-- Claim C1, amended: the band-pass stage's persisted low-pass
accumulator is the SAME scalar as the low-pass stage's persisted
`prevLowPassSample`, not a separate one: for every cutoff, sample rate,
state and buffer, both stages advance the single shared field by the same
one-pole low-pass recurrence (each with its own alpha), so running either
stage on a nonempty buffer generally changes the value the other stage
reads. -/
theorem bandPass_lowPass_share_prevLow (cutoff sampleRate : ℚ)
    (s : FilterState) (v : List ℚ) :
    (ApplyBandPass true cutoff sampleRate s v).1.prevLowPassSample =
      lowAcc (calculateAlpha |cutoff - 5| sampleRate) s.prevLowPassSample v
    ∧ (ApplyLowPass true cutoff sampleRate s v).1.prevLowPassSample =
      lowAcc (calculateAlpha cutoff sampleRate) s.prevLowPassSample v := by
  constructor
  · show (runLanes (bandPassLane _ _) s v).1.prevLowPassSample = _
    exact runLanes_bandPass_low _ _ v s
  · show (runLanes (lowPassLane _) s v).1.prevLowPassSample = _
    exact runLanes_lowPass_low _ v s

/-- Claim C2, counterexample: after the high-pass stage processes a lane
whose pre-stage value is x = 1 (state (0, 0, 0), cutoff 0, sample rate
44100), the persisted `prevInputSample` is NOT x: the lane is overwritten
with the output y = 0 before `prevInputSample` is recorded, so the stage
records y, not x. -/
theorem highPass_prevInput_cex :
    (ApplyHighPass true 0 44100 ⟨0, 0, 0⟩ [1]).1.prevInputSample ≠ (1 : ℚ) := by
  norm_num [ApplyHighPass, runLanes, highPassLane, calculateAlpha, M_PI]

/-- Claim C2, amended: in the high-pass stage, for every lane with
pre-stage value x the lane's output is
y = alpha * (prevHigh2 + x - prevInput2), and after processing that lane
the persisted state satisfies prevHigh2 = y and prevInput2 = y — the
mutated lane value (the output), not the pre-stage input x. -/
theorem highPass_lane_records_output (cutoff sampleRate : ℚ)
    (s : FilterState) (x : ℚ) (xs : List ℚ) :
    ApplyHighPass true cutoff sampleRate s (x :: xs) =
      (let a := calculateAlpha cutoff sampleRate
       let y := a * (s.prevHighPassSample + x - s.prevInputSample)
       let rest := runLanes (highPassLane a)
         { s with prevHighPassSample := y, prevInputSample := y } xs
       (rest.1, y :: rest.2)) := by
  rfl

/-- Claim C3, counterexample: `calculateAlpha 10000 44100` is NOT equal to
`calculateAlpha 22050 44100` — a 10000 Hz cutoff is below the Nyquist
frequency 22050 Hz, so it is not clamped and yields a strictly smaller
coefficient. -/
theorem calculateAlpha_10000_ne_nyquist :
    calculateAlpha 10000 44100 ≠ calculateAlpha 22050 44100 := by
  norm_num [calculateAlpha, M_PI]

/-- Claim C3, amended: a cutoff at or above the Nyquist frequency is
clamped to it, so `calculateAlpha 30000 44100 = calculateAlpha 22050 44100`
(10000 Hz, being below Nyquist, is not clamped and differs). -/
theorem calculateAlpha_clamps_above_nyquist :
    calculateAlpha 30000 44100 = calculateAlpha 22050 44100 := by
  norm_num [calculateAlpha, M_PI]

/-- Claim C6: for every cutoff and strictly positive sample rate,
`calculateAlpha` returns omega / (omega + 1) with
omega = 2 * M_PI * c / sampleRate and c = min |cutoff| (sampleRate / 2),
and the result lies in [0, 1]. -/
theorem calculateAlpha_spec_and_bounds (cutoff sampleRate : ℚ)
    (hsr : 0 < sampleRate) :
    calculateAlpha cutoff sampleRate =
      2 * M_PI * min |cutoff| (sampleRate / 2) / sampleRate /
        (2 * M_PI * min |cutoff| (sampleRate / 2) / sampleRate + 1)
    ∧ 0 ≤ calculateAlpha cutoff sampleRate
    ∧ calculateAlpha cutoff sampleRate ≤ 1 := by
  have hmin : (if |cutoff| > sampleRate / 2 then sampleRate / 2 else |cutoff|) =
      min |cutoff| (sampleRate / 2) := by
    rcases le_or_lt |cutoff| (sampleRate / 2) with h | h
    · rw [min_eq_left h, if_neg (not_lt.mpr h)]
    · rw [min_eq_right h.le, if_pos h]
  have heq : calculateAlpha cutoff sampleRate =
      2 * M_PI * min |cutoff| (sampleRate / 2) / sampleRate /
        (2 * M_PI * min |cutoff| (sampleRate / 2) / sampleRate + 1) := by
    simp only [calculateAlpha]
    rw [hmin]
  have hc0 : 0 ≤ min |cutoff| (sampleRate / 2) :=
    le_min (abs_nonneg _) (by linarith)
  have hMpi : 0 < M_PI := by norm_num [M_PI]
  have homega : 0 ≤ 2 * M_PI * min |cutoff| (sampleRate / 2) / sampleRate :=
    div_nonneg (by nlinarith) hsr.le
  refine ⟨heq, ?_, ?_⟩
  · rw [heq]
    exact div_nonneg homega (by linarith)
  · rw [heq, div_le_one (by linarith)]
    linarith

/-- Claim C6, witness: the specification and the bounds evaluated at
cutoff 100 Hz and sample rate 44100 Hz. -/
theorem calculateAlpha_spec_and_bounds_witness :
    (0 : ℚ) < 44100
    ∧ (calculateAlpha 100 44100 =
        2 * M_PI * min |(100 : ℚ)| ((44100 : ℚ) / 2) / 44100 /
          (2 * M_PI * min |(100 : ℚ)| ((44100 : ℚ) / 2) / 44100 + 1)
      ∧ 0 ≤ calculateAlpha 100 44100
      ∧ calculateAlpha 100 44100 ≤ 1) :=
  ⟨by norm_num, calculateAlpha_spec_and_bounds 100 44100 (by norm_num)⟩

theorem oddB_one_add (r : Nat) : oddB (1 + r) = !oddB r := by
  rcases Nat.mod_two_eq_zero_or_one r with h | h <;>
    simp [oddB, Nat.add_mod, h]

theorem runPower_parity (bs : List Bool) (s : PowerState) :
    (runPower s bs).state_on = xor s.state_on (oddB (risingEdges s.last_state bs)) := by
  induction bs generalizing s with
  | nil => simp [runPower, risingEdges, oddB]
  | cons b bs ih =>
    have h1 : runPower s (b :: bs) = runPower (updatePowerState b s) bs := rfl
    rw [h1, ih]
    show xor (if b && !s.last_state then !s.state_on else s.state_on)
        (oddB (risingEdges b bs)) =
      xor s.state_on (oddB ((if b && !s.last_state then 1 else 0) + risingEdges b bs))
    cases hb : (b && !s.last_state) with
    | false => simp
    | true =>
      rw [if_pos rfl, if_pos rfl, oddB_one_add]
      cases s.state_on <;> cases oddB (risingEdges b bs) <;> rfl

theorem runPower_last (bs : List Bool) (s : PowerState) :
    (runPower s bs).last_state = bs.getLastD s.last_state := by
  induction bs generalizing s with
  | nil => rfl
  | cons b bs ih =>
    show (runPower (updatePowerState b s) bs).last_state = _
    rw [ih, List.getLastD_cons]
    rfl

/-- Claim C4: for every sequence of raw boolean control inputs, the
latched `state_on` flips exactly once per strict rising edge — the final
value is the initial one xor-ed with the parity of the number of strict
rising edges — and never changes otherwise (per step, it changes exactly
when the raw value is true and the recorded previous one false); the raw
value is recorded in `last_state` after every call. The `Pass` module's
`updatePowerState` performs the same transition on its own fields. -/
theorem power_toggle_rising_edges (s : PowerState) (bs : List Bool)
    (b : Bool) (t : PassM) :
    (runPower s bs).state_on = xor s.state_on (oddB (risingEdges s.last_state bs))
    ∧ (runPower s bs).last_state = bs.getLastD s.last_state
    ∧ (updatePowerState b s).state_on =
        (if b && !s.last_state then !s.state_on else s.state_on)
    ∧ (updatePowerState b s).last_state = b
    ∧ (Pass.updatePowerState b t).state_on =
        (updatePowerState b ⟨t.state_on, t.last_state⟩).state_on
    ∧ (Pass.updatePowerState b t).last_state =
        (updatePowerState b ⟨t.state_on, t.last_state⟩).last_state :=
  ⟨runPower_parity bs s, runPower_last bs s, rfl, rfl, rfl, rfl⟩

theorem processInput_state_on (i : Option (List ℚ)) (s : PassM) :
    (Pass.processInput i s).state_on = s.state_on := by
  cases i <;> rfl

theorem processInput_state_on_sum (i : Option (List ℚ)) (s : PassM) :
    (Pass.processInput i s).state_on_sum = s.state_on_sum := by
  cases i <;> rfl

theorem processInput_state_on_avg (i : Option (List ℚ)) (s : PassM) :
    (Pass.processInput i s).state_on_avg = s.state_on_avg := by
  cases i <;> rfl

theorem processInputs_state_on (f : Frame) (s : PassM) :
    (Pass.processInputs f s).state_on = s.state_on := by
  simp [Pass.processInputs, processInput_state_on]

theorem processInputs_state_on_sum (f : Frame) (s : PassM) :
    (Pass.processInputs f s).state_on_sum = s.state_on_sum := by
  simp [Pass.processInputs, processInput_state_on_sum]

theorem processInputs_state_on_avg (f : Frame) (s : PassM) :
    (Pass.processInputs f s).state_on_avg = s.state_on_avg := by
  simp [Pass.processInputs, processInput_state_on_avg]

theorem updateModeStates_state_on (su av : Bool) (s : PassM) :
    (Pass.updateModeStates su av s).state_on = s.state_on := by
  simp only [Pass.updateModeStates]
  split_ifs <;> rfl

theorem updateModeStates_voltages (su av : Bool) (s : PassM) :
    (Pass.updateModeStates su av s).voltages = s.voltages := by
  simp only [Pass.updateModeStates]
  split_ifs <;> rfl

theorem updateModeStates_num_channels (su av : Bool) (s : PassM) :
    (Pass.updateModeStates su av s).num_channels = s.num_channels := by
  simp only [Pass.updateModeStates]
  split_ifs <;> rfl

theorem updateModeStates_mutex (su av : Bool) (s : PassM) (h : modeMutex s) :
    modeMutex (Pass.updateModeStates su av s) := by
  unfold modeMutex at h ⊢
  simp only [Pass.updateModeStates]
  split_ifs <;> simp_all

theorem process_mutex (f : Frame) (s : PassM) (h : modeMutex s) :
    modeMutex (Pass.process f s) := by
  have h1 : modeMutex (Pass.updatePowerState f.powerRaw s) := h
  have h2 : modeMutex (Pass.updateModeStates f.sumRaw f.avgRaw
      (Pass.updatePowerState f.powerRaw s)) := updateModeStates_mutex _ _ _ h1
  simp only [Pass.process]
  split_ifs <;>
    first
      | exact Or.inl rfl
      | simp_all [modeMutex, Pass.sendOutput, Pass.applyAverage,
          processInputs_state_on_sum, processInputs_state_on_avg]

theorem runPass_mutex (fs : List Frame) (s : PassM) (h : modeMutex s) :
    modeMutex (runPass s fs) := by
  induction fs generalizing s with
  | nil => exact h
  | cons f fs ih => exact ih (Pass.process f s) (process_mutex f s h)

theorem process_state_on (f : Frame) (s : PassM) :
    (Pass.process f s).state_on = (Pass.updatePowerState f.powerRaw s).state_on := by
  simp only [Pass.process]
  split_ifs <;>
    simp [Pass.disableOutput, Pass.sendOutput, Pass.applyAverage,
      processInputs_state_on, updateModeStates_state_on]

/-- Claim C5: mutual exclusivity of the combiner's mode flags. A
mode-state update preserves the invariant that at most one of
`state_on_sum` and `state_on_avg` is set, the power-off disable path
forces both flags false, processing a whole frame preserves the
invariant, a frame that ends powered off leaves both flags false, and
every state reachable from the initial state satisfies the invariant. -/
theorem mode_flags_exclusive (f : Frame) (s : PassM) (su av : Bool)
    (fs : List Frame) (h : modeMutex s) :
    modeMutex (Pass.updateModeStates su av s)
    ∧ ((Pass.disableOutput s).state_on_sum = false
        ∧ (Pass.disableOutput s).state_on_avg = false)
    ∧ modeMutex (Pass.process f s)
    ∧ ((Pass.process f s).state_on = false →
        (Pass.process f s).state_on_sum = false
          ∧ (Pass.process f s).state_on_avg = false)
    ∧ modeMutex (runPass initPass fs) := by
  refine ⟨updateModeStates_mutex su av s h, ⟨rfl, rfl⟩, process_mutex f s h,
    ?_, runPass_mutex fs initPass (Or.inl rfl)⟩
  intro hoff
  have hs1 : (Pass.updatePowerState f.powerRaw s).state_on = false := by
    rw [process_state_on] at hoff
    exact hoff
  simp [Pass.process, hs1, Pass.disableOutput]

/-- Claim C5, witness: the invariant statements evaluated at the initial
state and a frame that presses every button with one connected input. -/
theorem mode_flags_exclusive_witness :
    modeMutex initPass
    ∧ (modeMutex (Pass.updateModeStates true true initPass)
      ∧ ((Pass.disableOutput initPass).state_on_sum = false
          ∧ (Pass.disableOutput initPass).state_on_avg = false)
      ∧ modeMutex (Pass.process ⟨true, true, true, some [1], none, none⟩ initPass)
      ∧ ((Pass.process ⟨true, true, true, some [1], none, none⟩ initPass).state_on = false →
          (Pass.process ⟨true, true, true, some [1], none, none⟩ initPass).state_on_sum = false
            ∧ (Pass.process ⟨true, true, true, some [1], none, none⟩ initPass).state_on_avg = false)
      ∧ modeMutex (runPass initPass [⟨true, true, true, some [1], none, none⟩])) :=
  ⟨Or.inl rfl,
    mode_flags_exclusive ⟨true, true, true, some [1], none, none⟩ initPass true true
      [⟨true, true, true, some [1], none, none⟩] (Or.inl rfl)⟩

/-- Claim C10: when both the sum and the avg trigger present a strict
rising edge in the same call to `updateModeStates`, the result has
`state_on_avg = true` and `state_on_sum = false`: the avg edge detector
runs after the sum edge detector, so a simultaneous tie resolves in
favour of average mode. -/
theorem simultaneous_edges_avg_wins (s : PassM)
    (hsum : s.last_state_sum = false) (havg : s.last_state_avg = false) :
    (Pass.updateModeStates true true s).state_on_avg = true
    ∧ (Pass.updateModeStates true true s).state_on_sum = false := by
  simp [Pass.updateModeStates, hsum, havg]

/-- Claim C10, witness: both triggers pressed from the initial state. -/
theorem simultaneous_edges_avg_wins_witness :
    initPass.last_state_sum = false ∧ initPass.last_state_avg = false
    ∧ ((Pass.updateModeStates true true initPass).state_on_avg = true
      ∧ (Pass.updateModeStates true true initPass).state_on_sum = false) :=
  ⟨rfl, rfl, simultaneous_edges_avg_wins initPass rfl rfl⟩

/-- Claim C7: powered on with two connected 1-lane inputs carrying 4 and
2 volts, the combiner writes 3 to the output lane in average mode (the
sum 6 divided by the running total of 2 channels read across ports) and
6 in sum mode; in both cases the channel total for the frame is 2. -/
theorem combiner_avg_sum_example :
    (Pass.process ⟨false, false, false, some [4], some [2], none⟩
        { initPass with state_on := true, state_on_avg := true }).out =
      OutPort.mk 1 [3]
    ∧ (Pass.process ⟨false, false, false, some [4], some [2], none⟩
        { initPass with state_on := true, state_on_avg := true }).num_channels = 2
    ∧ (Pass.process ⟨false, false, false, some [4], some [2], none⟩
        { initPass with state_on := true, state_on_sum := true }).out =
      OutPort.mk 1 [6] := by
  refine ⟨?_, ?_, ?_⟩ <;>
    norm_num [Pass.process, Pass.updatePowerState, Pass.updateModeStates,
      Pass.processInputs, Pass.processInput, Pass.applyAverage, Pass.sendOutput,
      accumulateInto, initPass]

theorem process_on_eq (f : Frame) (s : PassM)
    (hon : (Pass.updatePowerState f.powerRaw s).state_on = true) :
    Pass.process f s =
      (let s2 := Pass.updateModeStates f.sumRaw f.avgRaw
        (Pass.updatePowerState f.powerRaw s)
       let s3 := if s2.state_on_sum || s2.state_on_avg then Pass.processInputs f s2
                 else s2
       if s3.num_channels > 0 then
         Pass.sendOutput (if s3.state_on_avg then Pass.applyAverage s3 else s3)
       else s3) := by
  simp [Pass.process, hon]

/-- Claim C8: powered on with neither mode active, the combiner reads no
input port (the frame's result does not depend on the input ports at
all), the lane buffer and the channel total keep their previous frame's
values, and when the retained channel total is positive the stale buffer
is still written to the output with channel count 1. -/
theorem combiner_inactive_stale (s : PassM) (pw su av : Bool)
    (i1 i2 i3 j1 j2 j3 : Option (List ℚ))
    (hon : (Pass.updatePowerState pw s).state_on = true)
    (hsum : (Pass.updateModeStates su av (Pass.updatePowerState pw s)).state_on_sum = false)
    (havg : (Pass.updateModeStates su av (Pass.updatePowerState pw s)).state_on_avg = false) :
    Pass.process ⟨pw, su, av, i1, i2, i3⟩ s = Pass.process ⟨pw, su, av, j1, j2, j3⟩ s
    ∧ (Pass.process ⟨pw, su, av, i1, i2, i3⟩ s).voltages = s.voltages
    ∧ (Pass.process ⟨pw, su, av, i1, i2, i3⟩ s).num_channels = s.num_channels
    ∧ (0 < s.num_channels →
        (Pass.process ⟨pw, su, av, i1, i2, i3⟩ s).out = OutPort.mk 1 s.voltages) := by
  have hvol : (Pass.updateModeStates su av (Pass.updatePowerState pw s)).voltages =
      s.voltages := by
    rw [updateModeStates_voltages]
    rfl
  have hnum : (Pass.updateModeStates su av (Pass.updatePowerState pw s)).num_channels =
      s.num_channels := by
    rw [updateModeStates_num_channels]
    rfl
  have heq : ∀ x1 x2 x3 : Option (List ℚ),
      Pass.process ⟨pw, su, av, x1, x2, x3⟩ s =
        (if 0 < s.num_channels then
          Pass.sendOutput (Pass.updateModeStates su av (Pass.updatePowerState pw s))
        else Pass.updateModeStates su av (Pass.updatePowerState pw s)) := by
    intro x1 x2 x3
    rw [process_on_eq ⟨pw, su, av, x1, x2, x3⟩ s hon]
    simp [hsum, havg, hnum]
  refine ⟨by rw [heq, heq], ?_, ?_, ?_⟩
  · rw [heq]
    split_ifs <;> simp [Pass.sendOutput, hvol]
  · rw [heq]
    split_ifs <;> simp [Pass.sendOutput, hnum]
  · intro hpos
    rw [heq, if_pos hpos]
    simp [Pass.sendOutput, hvol]

/-- Claim C8, witness: a powered-on state with a stale one-lane buffer
and channel total 1, no trigger pressed, and two different input
configurations. -/
theorem combiner_inactive_stale_witness :
    (Pass.updatePowerState false
        ⟨1, [5], true, false, false, false, false, false, ⟨0, []⟩⟩).state_on = true
    ∧ (Pass.updateModeStates false false (Pass.updatePowerState false
        ⟨1, [5], true, false, false, false, false, false, ⟨0, []⟩⟩)).state_on_sum = false
    ∧ (Pass.updateModeStates false false (Pass.updatePowerState false
        ⟨1, [5], true, false, false, false, false, false, ⟨0, []⟩⟩)).state_on_avg = false
    ∧ (Pass.process ⟨false, false, false, some [9], none, none⟩
          ⟨1, [5], true, false, false, false, false, false, ⟨0, []⟩⟩ =
        Pass.process ⟨false, false, false, none, none, none⟩
          ⟨1, [5], true, false, false, false, false, false, ⟨0, []⟩⟩
      ∧ (Pass.process ⟨false, false, false, some [9], none, none⟩
          ⟨1, [5], true, false, false, false, false, false, ⟨0, []⟩⟩).voltages =
        (⟨1, [5], true, false, false, false, false, false, ⟨0, []⟩⟩ : PassM).voltages
      ∧ (Pass.process ⟨false, false, false, some [9], none, none⟩
          ⟨1, [5], true, false, false, false, false, false, ⟨0, []⟩⟩).num_channels =
        (⟨1, [5], true, false, false, false, false, false, ⟨0, []⟩⟩ : PassM).num_channels
      ∧ (0 < (⟨1, [5], true, false, false, false, false, false, ⟨0, []⟩⟩ : PassM).num_channels →
          (Pass.process ⟨false, false, false, some [9], none, none⟩
            ⟨1, [5], true, false, false, false, false, false, ⟨0, []⟩⟩).out =
          OutPort.mk 1 (⟨1, [5], true, false, false, false, false, false, ⟨0, []⟩⟩ : PassM).voltages)) :=
  ⟨rfl, rfl, rfl,
    combiner_inactive_stale ⟨1, [5], true, false, false, false, false, false, ⟨0, []⟩⟩
      false false false (some [9]) none none none none none rfl rfl rfl⟩

/-- Claim C9: whenever the combiner produces output (powered on with a
positive channel total for the frame), the output port's channel count is
set to exactly 1 regardless of the lane buffer's length, and the write
passes the full (possibly multi-lane) buffer. -/
theorem output_single_channel (f : Frame) (s : PassM)
    (hon : (Pass.process f s).state_on = true)
    (hch : 0 < (Pass.process f s).num_channels) :
    (Pass.process f s).out.channels = 1
    ∧ (Pass.process f s).out.written = (Pass.process f s).voltages := by
  have hs1 : (Pass.updatePowerState f.powerRaw s).state_on = true := by
    rw [process_state_on] at hon
    exact hon
  simp only [process_on_eq f s hs1] at hch ⊢
  split_ifs at hch ⊢ <;>
    first
      | exact ⟨rfl, rfl⟩
      | exact absurd hch (by assumption)

/-- Claim C9, witness: a powered-on sum-mode frame with one connected
two-lane input, showing a two-lane buffer written with channel count 1. -/
theorem output_single_channel_witness :
    (Pass.process ⟨false, false, false, some [4, 5], none, none⟩
        ⟨0, [], true, false, false, false, true, false, ⟨0, []⟩⟩).state_on = true
    ∧ 0 < (Pass.process ⟨false, false, false, some [4, 5], none, none⟩
        ⟨0, [], true, false, false, false, true, false, ⟨0, []⟩⟩).num_channels
    ∧ ((Pass.process ⟨false, false, false, some [4, 5], none, none⟩
          ⟨0, [], true, false, false, false, true, false, ⟨0, []⟩⟩).out.channels = 1
      ∧ (Pass.process ⟨false, false, false, some [4, 5], none, none⟩
          ⟨0, [], true, false, false, false, true, false, ⟨0, []⟩⟩).out.written =
        (Pass.process ⟨false, false, false, some [4, 5], none, none⟩
          ⟨0, [], true, false, false, false, true, false, ⟨0, []⟩⟩).voltages) :=
  ⟨by decide, by decide,
    output_single_channel ⟨false, false, false, some [4, 5], none, none⟩
      ⟨0, [], true, false, false, false, true, false, ⟨0, []⟩⟩ (by decide) (by decide)⟩
